import Mathlib

/-!
# Verification of the snippy search pipeline

A shallow embedding of the core of the `snippy` research-article search
aggregator (files `lib/search_logic.py`, `lib/api_utils.py`,
`lib/blob_storage.py`, `api/search.py`), together with theorems settling
the specification claims about it.

External collaborators (the Crossref bibliographic source, the JUFO
ranking source, the fuzzy string-similarity ratio, the URL encoder and
the blob store) are modelled as explicit function parameters.  Python
`None` on optional integers is modelled with `Option`; the JSON-ish
values flowing through the blob store are modelled with an explicit
`PyVal` type.
-/

/-- One bibliographic hit, as produced by `crossref_search`
(`lib/api_utils.py`): when the DOI is empty the `link` field holds the
sentinel string `"No link available"`, and `journal` defaults to
`"Unknown"`.  The `level` field is `none` until enrichment. -/
structure Article where
  title : String
  link : String
  journal : String
  year : String
  raw_info : String
  level : Option Nat := none
deriving DecidableEq, Repr

/-- The sentinel link given by `crossref_search` to a record without a DOI
(`lib/api_utils.py`, line 50). -/
def noLinkSentinel : String := "No link available"

/-! ## The merge step of `get_more_results` (`api/search.py`, lines 129-133)

```python
existing_links = {r.get('link') for r in existing_results if r.get('link')}
unique_new_results = [r for r in batch_results if r.get('link') not in existing_links]
combined_results = existing_results + unique_new_results
```

A missing `link` key and an empty-string `link` are both falsy in Python
and behave identically in this code (neither enters `existing_links`,
and neither can equal any member of that set of non-empty strings), so
the embedding represents an absent link as `""`. -/

/-- The set `existing_links`: all truthy (non-empty) `link` values of the
existing records.  A Python set is modelled as a list used only through
membership. -/
def existing_links (existing_results : List Article) : List String :=
  (existing_results.map (fun r => r.link)).filter (fun l => l ≠ "")

/-- The list comprehension `unique_new_results`: incoming records whose
link is not in `existing_links`. -/
def unique_new_results (existing_results batch_results : List Article) : List Article :=
  batch_results.filter (fun r => ¬ (existing_links existing_results).contains r.link)

/-- `combined_results = existing_results + unique_new_results`. -/
def combined_results (existing_results batch_results : List Article) : List Article :=
  existing_results ++ unique_new_results existing_results batch_results

/-- An article with only a link, for concrete merge inputs. -/
def mkLinked (title link : String) : Article :=
  { title := title, link := link, journal := "Unknown", year := "N/A"
    raw_info := "", level := none }

/-- Links of truthy (non-empty) value in `xs` are exactly the non-empty
links of members of `xs`. -/
theorem mem_existing_links {xs : List Article} {l : String} :
    l ∈ existing_links xs ↔ (∃ r ∈ xs, r.link = l) ∧ l ≠ "" := by
  simp [existing_links, List.mem_filter, List.mem_map]

/-- Splitting `existing_links` over an append of record lists. -/
theorem existing_links_append (a b : List Article) :
    existing_links (a ++ b) = existing_links a ++ existing_links b := by
  simp [existing_links, List.filter_append]

/-- C3, counterexample: the sentinel link `"No link available"` is a
non-empty (truthy) string, so it enters `existing_links` and an incoming
record carrying the same sentinel IS deduplicated (dropped), where the
claim says it is "never deduplicated" and "kept". -/
theorem c3_sentinel_is_deduplicated :
    (mkLinked "B" noLinkSentinel).link = noLinkSentinel ∧
    combined_results [mkLinked "A" noLinkSentinel] [mkLinked "B" noLinkSentinel]
      = [mkLinked "A" noLinkSentinel] := by
  decide

/-- C3, amended: an incoming record is kept iff its `link` is the empty
(falsy) value, or no record of `existing` carries the same link.  The
link set of `existing` holds only non-empty links, so empty-link records
are never deduplicated; every non-empty link — including the sentinel
`"No link available"` — deduplicates against an equal link in
`existing`. -/
theorem c3_merge_keeps_iff (existing batch : List Article) :
    unique_new_results existing batch
      = batch.filter
          (fun r => r.link == "" || !(existing.any (fun e => e.link == r.link))) := by
  unfold unique_new_results
  refine List.filter_congr ?_
  intro r _
  by_cases h : r.link = ""
  · simp [existing_links, h]
  · rw [Bool.eq_iff_iff]
    simp [existing_links, h, List.any_eq_true]

/-- C6, counterexample: merging the same incoming batch twice is NOT
idempotent when an incoming record has an empty link — the record is
appended again on the second merge, because empty links never enter
`existing_links`. -/
theorem c6_empty_link_not_idempotent :
    combined_results (combined_results [] [mkLinked "A" ""]) [mkLinked "A" ""]
      ≠ combined_results [] [mkLinked "A" ""] := by
  decide

/-- C6, amended: the merge IS idempotent in its incoming argument
provided every incoming record has a non-empty link (in particular no
duplicate non-empty links ever accumulate); only records with an
empty/missing link are re-appended by a repeated merge. -/
theorem c6_merge_idempotent_on_linked (existing incoming : List Article)
    (h : ∀ r ∈ incoming, r.link ≠ "") :
    combined_results (combined_results existing incoming) incoming
      = combined_results existing incoming := by
  have hempty : unique_new_results (combined_results existing incoming) incoming = [] := by
    rw [unique_new_results, List.filter_eq_nil_iff]
    intro r hr
    have hlink := h r hr
    simp only [decide_not, Bool.not_eq_true', Bool.not_eq_false, decide_eq_true_iff,
      List.contains_iff_exists_mem_beq, combined_results, existing_links_append,
      List.mem_append, beq_iff_eq]
    by_cases hmem : r.link ∈ existing_links existing
    · exact ⟨r.link, Or.inl hmem, rfl⟩
    · have hkept : r ∈ unique_new_results existing incoming := by
        rw [unique_new_results, List.mem_filter]
        refine ⟨hr, ?_⟩
        simp only [decide_not, Bool.not_eq_true', Bool.not_eq_false, decide_eq_false_iff_not,
          List.contains_iff_exists_mem_beq, beq_iff_eq]
        rintro ⟨l, hl, rfl⟩
        exact hmem hl
      refine ⟨r.link, Or.inr ?_, rfl⟩
      exact mem_existing_links.mpr ⟨⟨r, hkept, rfl⟩, hlink⟩
  rw [combined_results, hempty, List.append_nil]

/-- Witness for `c6_merge_idempotent_on_linked` at a concrete input. -/
theorem c6_merge_idempotent_on_linked_witness :
    (∀ r ∈ [mkLinked "B" "https://doi.org/10.1/b"], r.link ≠ "") ∧
    combined_results
        (combined_results [mkLinked "A" "https://doi.org/10.1/a"]
          [mkLinked "B" "https://doi.org/10.1/b"])
        [mkLinked "B" "https://doi.org/10.1/b"]
      = combined_results [mkLinked "A" "https://doi.org/10.1/a"]
          [mkLinked "B" "https://doi.org/10.1/b"] :=
  ⟨by decide, c6_merge_idempotent_on_linked _ _ (by decide)⟩

/-! ## Sorting (`lib/search_logic.py`, `sort_results`, lines 167-185)

```python
def get_sort_key(item):
    level = item.get("level")
    level_key = -1 if level is None else -int(level)
    year_str = item.get("year", "0")
    year = int(year_str) if year_str.isdigit() else 0
    return (level_key, -year)
return sorted(results, key=get_sort_key)
```

Python `sorted` is a stable sort by the key under the lexicographic
tuple order; a stable sort with respect to a total preorder is unique,
so it is modelled by Mathlib's stable `List.insertionSort` over the
key order `sort_key_le`. -/

/-- Python `s.isdigit()` on the ASCII digit strings that occur here:
non-empty and made of decimal digits only. -/
def pyIsDigit (s : String) : Bool :=
  !s.data.isEmpty && s.data.all (fun c => c.isDigit)

/-- Python `int(s)` on a string of decimal digits. -/
def pyParseNat (s : String) : Nat :=
  s.data.foldl (fun n c => 10 * n + (c.toNat - 48)) 0

/-- `get_sort_key`: level `None` maps to key `-1`, level `l` to `-l`;
a non-digit year string counts as year `0`; the year is negated. -/
def get_sort_key (item : Article) : Int × Int :=
  let level_key : Int := match item.level with | none => -1 | some l => -(l : Int)
  let year : Int := if pyIsDigit item.year then (pyParseNat item.year : Int) else 0
  (level_key, -year)

/-- The lexicographic tuple order Python `sorted` uses on the keys. -/
def sort_key_le (a b : Article) : Prop :=
  (get_sort_key a).1 < (get_sort_key b).1 ∨
    ((get_sort_key a).1 = (get_sort_key b).1 ∧ (get_sort_key a).2 ≤ (get_sort_key b).2)

instance : DecidableRel sort_key_le := fun a b => by unfold sort_key_le; infer_instance

instance : IsTotal Article sort_key_le where
  total a b := by unfold sort_key_le; omega

instance : IsTrans Article sort_key_le where
  trans a b c := by unfold sort_key_le; omega

/-- `sort_results`: the stable sort of the records by `get_sort_key`. -/
def sort_results (results : List Article) : List Article :=
  List.insertionSort sort_key_le results

/-- An article with a level and a year, for concrete sort inputs. -/
def mkRanked (t : String) (level : Option Nat) (year : String) : Article :=
  { title := t, link := "", journal := "Unknown", year := year
    raw_info := "", level := level }

/-- C4, counterexample: a null-level record is NOT placed after every
record of level 1 or higher — the null key `-1` equals the key of level
1, so the tie is broken by year, and here the null-level record (year
2021) sorts BEFORE the level-1 record (year 2019). -/
theorem c4_null_ties_with_level_one :
    sort_results [mkRanked "a" (some 1) "2019", mkRanked "b" none "2021"]
      = [mkRanked "b" none "2021", mkRanked "a" (some 1) "2019"] := by
  decide

/-- C4, amended: `sort_results` is the stable sort by the key
`(level_key, -year)` with null level mapping to key `-1` — the same key
as level 1.  Hence: the output is a permutation of the input, pairwise
ordered by the lexicographic key order (higher level first, then more
recent numeric year, non-digit years counting as 0); every null-level
record is placed before every level-0 record and after every record of
level 2 or higher (relative to level-1 records the order is decided by
year, then input order); records whose keys are ordered keep their
relative input order (stability), and the output is a deterministic
function of the input. -/
theorem c4_sort_results_spec (l : List Article) :
    List.Perm (sort_results l) l ∧
    (sort_results l).Pairwise sort_key_le ∧
    (sort_results l).Pairwise (fun x y => ¬(x.level = some 0 ∧ y.level = none)) ∧
    (sort_results l).Pairwise (fun x y => ¬(x.level = none ∧ ∃ k, y.level = some k ∧ 2 ≤ k)) ∧
    (∀ a b, sort_key_le a b → List.Sublist [a, b] l → List.Sublist [a, b] (sort_results l)) := by
  have hsorted : (sort_results l).Pairwise sort_key_le := List.sorted_insertionSort _ _
  refine ⟨List.perm_insertionSort _ _, hsorted, ?_, ?_, ?_⟩
  · refine hsorted.imp ?_
    intro x y hxy
    rintro ⟨hx, hy⟩
    simp only [sort_key_le, get_sort_key, hx, hy] at hxy
    omega
  · refine hsorted.imp ?_
    intro x y hxy
    rintro ⟨hx, k, hy, hk⟩
    simp only [sort_key_le, get_sort_key, hx, hy] at hxy
    omega
  · intro a b hab h
    exact List.pair_sublist_insertionSort hab h

/-- Witness for `c4_sort_results_spec`: the stability clause applied to
two records with identical keys, which keep their input order. -/
theorem c4_sort_results_spec_witness :
    (sort_key_le (mkRanked "a" (some 2) "2020") (mkRanked "b" (some 2) "2020") ∧
      List.Sublist [mkRanked "a" (some 2) "2020", mkRanked "b" (some 2) "2020"]
        [mkRanked "a" (some 2) "2020", mkRanked "b" (some 2) "2020"]) ∧
    List.Sublist [mkRanked "a" (some 2) "2020", mkRanked "b" (some 2) "2020"]
      (sort_results [mkRanked "a" (some 2) "2020", mkRanked "b" (some 2) "2020"]) :=
  ⟨⟨by unfold sort_key_le; decide, List.Sublist.refl _⟩,
    (c4_sort_results_spec _).2.2.2.2 _ _ (by unfold sort_key_le; decide) (List.Sublist.refl _)⟩

/-! ## Batch processing (`lib/search_logic.py`, lines 68-165)

`enrich_with_jufo_levels` walks the page in slices of 5 with bounded
concurrency and a per-item timeout, but its value is a per-item map:
each record's `level` becomes the resolver's answer for its journal
(`none` on timeout or no data).  The resolver is abstracted as a
function `resolve`.

`process_search_batch` wraps the whole search-enrich-count sequence in
`try/except`; the fallible search and enrichment steps are modelled as
`Except` values, and the surrounding handler converts any error into
the degraded value `([], false, 0)`. -/

/-- `enrich_with_jufo_levels`: set each item's `level` from the
resolver. -/
def enrich_with_jufo_levels (resolve : String → Option Nat) (results : List Article) :
    List Article :=
  results.map (fun item => { item with level := resolve item.journal })

/-- `sum(1 for r in enriched_results if r.get("level") in [2, 3])`. -/
def jufo_quality_count (rs : List Article) : Nat :=
  rs.countP (fun r => r.level == some 2 || r.level == some 3)

/-- `process_search_batch`: search, early-return on an empty page,
enrich, count quality hits, decide `has_more` (page full, overridden to
false once the target is reached); any error in the sequence is caught
and becomes `([], false, 0)`. -/
def process_search_batch (searchE : Except String (List Article))
    (enrichE : List Article → Except String (List Article))
    (limit : Nat) (target_jufo : Option Nat) : List Article × Bool × Nat :=
  let body : Except String (List Article × Bool × Nat) :=
    match searchE with
    | .error e => .error e
    | .ok results =>
      if results.isEmpty then .ok ([], false, 0)
      else
        match enrichE results with
        | .error e => .error e
        | .ok enriched =>
          let jufo_count := jufo_quality_count enriched
          let has_more := results.length == limit
          let has_more := match target_jufo with
            | some t => if jufo_count ≥ t then false else has_more
            | none => has_more
          .ok (enriched, has_more, jufo_count)
  match body with
  | .ok v => v
  | .error _ => ([], false, 0)

/-- C5: with a successful search step and a limit respecting the search
contract (`limit > 0`), `has_more` is true iff the page is full
(`len(results) == limit`) and no requested quality target has been
reached by the count of enriched records with level 2 or 3. -/
theorem c5_has_more_iff (resolve : String → Option Nat) (results : List Article)
    (limit : Nat) (target_jufo : Option Nat) (hlimit : 0 < limit) :
    (process_search_batch (Except.ok results)
        (fun rs => Except.ok (enrich_with_jufo_levels resolve rs)) limit target_jufo).2.1 = true
      ↔ (results.length = limit ∧
          ∀ t, target_jufo = some t →
            jufo_quality_count (enrich_with_jufo_levels resolve results) < t) := by
  cases results with
  | nil =>
    simp only [process_search_batch, List.isEmpty_nil, if_true, List.length_nil]
    constructor
    · intro h; cases h
    · rintro ⟨h, -⟩; omega
  | cons a rest =>
    cases target_jufo with
    | none =>
      simp [process_search_batch]
    | some t =>
      by_cases hc : t ≤ jufo_quality_count (enrich_with_jufo_levels resolve (a :: rest))
      · simp [process_search_batch, hc]
      · simp [process_search_batch, hc]
        intro h
        omega

/-- Witness for `c5_has_more_iff`: a full page of 20 raw items with no
target gives `has_more = true`. -/
theorem c5_has_more_iff_witness :
    0 < 20 ∧
    (process_search_batch
        (Except.ok (List.replicate 20 (mkRanked "a" none "N/A")))
        (fun rs => Except.ok (enrich_with_jufo_levels (fun _ => none) rs))
        20 none).2.1 = true :=
  ⟨by decide,
    (c5_has_more_iff (fun _ => none) (List.replicate 20 (mkRanked "a" none "N/A")) 20 none
        (by decide)).mpr
      ⟨by decide, fun t h => Option.noConfusion h⟩⟩

/-- C9: `process_search_batch` never propagates an error — an empty
search result returns exactly `([], false, 0)`, and an error raised by
the search step or by the enrichment step is caught and converted to the
same degraded value. -/
theorem c9_degrades_errors (searchE : Except String (List Article))
    (enrichE : List Article → Except String (List Article))
    (limit : Nat) (target_jufo : Option Nat) :
    (searchE = Except.ok [] →
      process_search_batch searchE enrichE limit target_jufo = ([], false, 0)) ∧
    (∀ e, searchE = Except.error e →
      process_search_batch searchE enrichE limit target_jufo = ([], false, 0)) ∧
    (∀ results e, searchE = Except.ok results → enrichE results = Except.error e →
      process_search_batch searchE enrichE limit target_jufo = ([], false, 0)) := by
  refine ⟨?_, ?_, ?_⟩
  · rintro rfl
    simp [process_search_batch]
  · rintro e rfl
    simp [process_search_batch]
  · rintro results e rfl henrich
    cases results with
    | nil => simp [process_search_batch]
    | cons a rest => simp [process_search_batch, henrich]

/-- Witness for `c9_degrades_errors`: a failing search step yields the
degraded value. -/
theorem c9_degrades_errors_witness :
    (Except.error "upstream failure" : Except String (List Article))
        = Except.error "upstream failure" ∧
    process_search_batch (Except.error "upstream failure")
        (fun rs => Except.ok rs) 10 none = ([], false, 0) :=
  ⟨rfl, (c9_degrades_errors _ _ _ _).2.1 "upstream failure" rfl⟩

/-! ## Blob storage (`lib/blob_storage.py`)

The blob store's contents are a map from key to stored JSON value; a
missing key and a stored JSON `null` both read back as Python `None`
and are modelled by `PyVal.none`.  Writes always succeed in the store
model (in development mode `put_blob` writes a local file and returns
a truthy URL); an exception raised while updating the search index
(`index["searches"].append` on a non-list) is modelled by `Option`. -/

/-- A Python/JSON value as handled by `blob_storage.py`. -/
inductive PyVal where
  | none
  | str (s : String)
  | int (n : Int)
  | bool (b : Bool)
  | list (xs : List PyVal)
  | dict (kvs : List (String × PyVal))

/-- Python truthiness of a `PyVal`. -/
def pyTruthy : PyVal → Bool
  | .none => false
  | .str s => !s.data.isEmpty
  | .int n => n != 0
  | .bool b => b
  | .list xs => !xs.isEmpty
  | .dict kvs => !kvs.isEmpty

/-- Python `isinstance(v, dict)`. -/
def PyVal.isDict : PyVal → Bool
  | .dict _ => true
  | _ => false

/-- Python `isinstance(v, list)`. -/
def PyVal.isList : PyVal → Bool
  | .list _ => true
  | _ => false

/-- The blob store contents: key to value, `PyVal.none` when absent. -/
def Store := String → PyVal

/-- `get_blob`: look the key up (missing gives `None`). -/
def get_blob (store : Store) (key : String) : PyVal := store key

/-- `put_blob`: store the value under the key. -/
def put_blob (store : Store) (key : String) (v : PyVal) : Store :=
  fun k => if k = key then v else store k

/-- Python `keywords.replace(' ', '_')` — the pattern is a single
character, so the replacement is a per-character map. -/
def underscoreSpaces (s : String) : String :=
  String.mk (s.data.map (fun c => if c = ' ' then '_' else c))

/-- The key `get_more_results` reads:
`f"searches/{keywords.replace(' ', '_')}"` (`api/search.py`, line 109). -/
def search_key (keywords : String) : String :=
  "searches/" ++ underscoreSpaces keywords

/-- The key `save_search_results` writes:
`f"searches/{keywords.replace(' ', '_')}_{timestamp}"`
(`lib/blob_storage.py`, line 207). -/
def snapshot_key (keywords timestamp : String) : String :=
  search_key keywords ++ "_" ++ timestamp

/-- Python dict assignment `d[k] = v`: replace the binding in place. -/
def dictSet (kvs : List (String × PyVal)) (k : String) (v : PyVal) :
    List (String × PyVal) :=
  match kvs with
  | [] => [(k, v)]
  | (k', v') :: rest => if k' = k then (k, v) :: rest else (k', v') :: dictSet rest k v

/-- `update_search_index`: read the `"search_index"` blob (default
`{"searches": []}` when falsy), append the metadata to its
`"searches"` list and write it back.  `Option.none` models the
`AttributeError` raised when the stored index has no appendable
`"searches"` list. -/
def update_search_index (store : Store) (metadata : PyVal) : Option Store :=
  let index :=
    let v := get_blob store "search_index"
    if pyTruthy v then v else PyVal.dict [("searches", PyVal.list [])]
  match index with
  | .dict kvs =>
    match kvs.lookup "searches" with
    | some (.list xs) =>
      some (put_blob store "search_index"
        (.dict (dictSet kvs "searches" (.list (xs ++ [metadata])))))
    | _ => Option.none
  | _ => Option.none

/-- The snapshot document `save_search_results` stores. -/
def snapshotVal (keywords timestamp : String) (results : List PyVal) : PyVal :=
  .dict [("keywords", .str keywords), ("timestamp", .str timestamp),
         ("results", .list results), ("count", .int results.length)]

/-- `save_search_results`: write the snapshot under
`snapshot_key keywords timestamp`, then append an index entry.  The
wall-clock timestamp is passed explicitly. -/
def save_search_results (store : Store) (keywords timestamp : String)
    (results : List PyVal) : Option Store :=
  let key := snapshot_key keywords timestamp
  let store1 := put_blob store key (snapshotVal keywords timestamp results)
  update_search_index store1
    (.dict [("id", .str key), ("keywords", .str keywords),
            ("timestamp", .str timestamp), ("count", .int results.length)])

/-- `get_search_results` (`lib/blob_storage.py`, lines 234-239):
`data.get("results", [])` when the blob is a truthy dict, else `[]`. -/
def get_search_results (store : Store) (search_id : String) : PyVal :=
  let data := get_blob store search_id
  if pyTruthy data && data.isDict then
    match data with
    | .dict kvs =>
      match kvs.lookup "results" with
      | some v => v
      | Option.none => .list []
    | _ => .list []
  else .list []

/-- A key of the form `"searches/..."` is never the index key. -/
theorem search_key_ne_index (u : String) : ("searches/" ++ u) ≠ "search_index" := by
  intro h
  have h6 := congrArg (fun s => s.data[6]?) h
  simp only [String.data_append] at h6
  rw [List.getElem?_append_left (by decide)] at h6
  exact absurd h6 (by decide)

/-- Appending a non-empty string changes a string. -/
theorem append_ne_self (s t : String) (h : t.data ≠ []) : (s ++ t) ≠ s := by
  intro he
  have hl := congrArg (fun x => x.data.length) he
  simp only [String.data_append, List.length_append] at hl
  have : t.data.length = 0 := by omega
  exact h (List.length_eq_zero.mp this)

/-- The snapshot key carries the timestamp suffix, so it always differs
from the key `get_more_results` reads. -/
theorem snapshot_key_ne_search_key (keywords timestamp : String) :
    snapshot_key keywords timestamp ≠ search_key keywords := by
  unfold snapshot_key
  rw [String.append_assoc]
  exact append_ne_self _ _ (by simp [String.data_append])

/-- The snapshot key is never the index key. -/
theorem snapshot_key_ne_index (keywords timestamp : String) :
    snapshot_key keywords timestamp ≠ "search_index" := by
  unfold snapshot_key search_key
  rw [String.append_assoc, String.append_assoc]
  exact search_key_ne_index _

/-- The index key is never the read key. -/
theorem search_key_ne_index_key (keywords : String) :
    search_key keywords ≠ "search_index" := by
  unfold search_key
  exact search_key_ne_index _

/-- A successful `save_search_results` writes exactly the snapshot key
and the index key. -/
theorem save_search_results_writes (store : Store) (keywords timestamp : String)
    (results : List PyVal) (store2 : Store)
    (hsave : save_search_results store keywords timestamp results = some store2) :
    ∃ idx, store2 = put_blob
      (put_blob store (snapshot_key keywords timestamp)
        (snapshotVal keywords timestamp results))
      "search_index" idx := by
  unfold save_search_results update_search_index at hsave
  simp only at hsave
  split at hsave
  · split at hsave
    all_goals cases hsave
    exact ⟨_, rfl⟩
  · cases hsave

/-- C1-adjacent store fact used by C2: after a save, the snapshot sits
under the timestamped key, while the timestamp-less key that
`get_more_results` reads is untouched — the save can never be read
back through `search_key`. -/
theorem c2_read_key_never_written (store : Store) (keywords timestamp : String)
    (results : List PyVal) (store2 : Store)
    (hsave : save_search_results store keywords timestamp results = some store2) :
    get_blob store2 (snapshot_key keywords timestamp)
        = snapshotVal keywords timestamp results ∧
    get_blob store2 (search_key keywords) = get_blob store (search_key keywords) := by
  obtain ⟨idx, rfl⟩ := save_search_results_writes store keywords timestamp results store2 hsave
  constructor
  · simp only [get_blob, put_blob]
    rw [if_neg (snapshot_key_ne_index keywords timestamp)]
    simp
  · simp only [get_blob, put_blob]
    rw [if_neg (search_key_ne_index_key keywords),
      if_neg (Ne.symm (snapshot_key_ne_search_key keywords timestamp))]

/-- The empty blob store. -/
def emptyStore : Store := fun _ => PyVal.none

/-- A concrete stored article for the C2 failing input. -/
def c2_article : PyVal := PyVal.dict [("link", PyVal.str "https://doi.org/10.1/a")]

/-- The store produced by saving one result for `"machine learning"`
into the empty store. -/
def c2_saved : Store :=
  put_blob
    (put_blob emptyStore (snapshot_key "machine learning" "20240101120000")
      (snapshotVal "machine learning" "20240101120000" [c2_article]))
    "search_index"
    (PyVal.dict [("searches",
      PyVal.list [PyVal.dict
        [("id", PyVal.str (snapshot_key "machine learning" "20240101120000")),
         ("keywords", PyVal.str "machine learning"),
         ("timestamp", PyVal.str "20240101120000"),
         ("count", PyVal.int 1)]])])

/-- Witness for `c2_read_key_never_written` at the failing input: after
saving a non-empty result list for `"machine learning"`, the key
`get_more_results` reads still holds nothing, and the read used for
"existing results" yields the empty list instead of the snapshot. -/
theorem c2_read_key_never_written_witness :
    save_search_results emptyStore "machine learning" "20240101120000" [c2_article]
        = some c2_saved ∧
    get_blob c2_saved (snapshot_key "machine learning" "20240101120000")
        = snapshotVal "machine learning" "20240101120000" [c2_article] ∧
    get_blob c2_saved (search_key "machine learning") = PyVal.none ∧
    get_search_results c2_saved (search_key "machine learning") = PyVal.list [] := by
  have hsave : save_search_results emptyStore "machine learning" "20240101120000" [c2_article]
      = some c2_saved := by rfl
  have h := c2_read_key_never_written emptyStore "machine learning" "20240101120000"
    [c2_article] c2_saved hsave
  exact ⟨hsave, h.1, h.2.trans (by rfl), by rfl⟩

/-- C10, counterexample: a stored dict whose `results` field is JSON
null makes `get_search_results` return Python `None`, not a list — the
claim's "always returns a list, never None" fails over arbitrary stored
state. -/
theorem c10_null_results_field :
    get_search_results
        (put_blob emptyStore "searches/x" (PyVal.dict [("results", PyVal.none)]))
        "searches/x"
      = PyVal.none ∧
    PyVal.isList PyVal.none = false := ⟨rfl, rfl⟩

/-- C10, amended: `get_search_results` returns the empty list whenever
the blob is missing, falsy, not a dict, or a dict without a `results`
binding; when the dict binds `results` to a value it returns that value
verbatim — a list whenever the stored field is a list, which holds for
every snapshot written by `save_search_results` — so on such states the
caller's `None` check in `get_more_results` is never taken. -/
theorem c10_get_search_results_spec (store : Store) (search_id : String) :
    (¬ (pyTruthy (get_blob store search_id) = true ∧
        PyVal.isDict (get_blob store search_id) = true) →
      get_search_results store search_id = PyVal.list []) ∧
    (∀ kvs, get_blob store search_id = PyVal.dict kvs →
      kvs.lookup "results" = Option.none →
      get_search_results store search_id = PyVal.list []) ∧
    (∀ kvs xs, get_blob store search_id = PyVal.dict kvs →
      kvs.lookup "results" = some (PyVal.list xs) →
      get_search_results store search_id = PyVal.list xs) ∧
    (∀ keywords timestamp results store2,
      save_search_results store keywords timestamp results = some store2 →
      get_search_results store2 (snapshot_key keywords timestamp)
        = PyVal.list results) := by
  refine ⟨?_, ?_, ?_, ?_⟩
  · intro h
    unfold get_search_results
    rw [if_neg]
    simpa [Bool.and_eq_true] using h
  · intro kvs hd hl
    unfold get_search_results
    rw [hd]
    cases kvs with
    | nil => rfl
    | cons p rest =>
      simp only [pyTruthy, PyVal.isDict, List.isEmpty_cons, Bool.not_false, Bool.and_self,
        if_true]
      rw [hl]
  · intro kvs xs hd hl
    unfold get_search_results
    rw [hd]
    cases kvs with
    | nil => cases hl
    | cons p rest =>
      simp only [pyTruthy, PyVal.isDict, List.isEmpty_cons, Bool.not_false, Bool.and_self,
        if_true]
      rw [hl]
  · intro keywords timestamp results store2 hsave
    obtain ⟨idx, rfl⟩ := save_search_results_writes store keywords timestamp results store2 hsave
    have hdata : get_blob
        (put_blob
          (put_blob store (snapshot_key keywords timestamp)
            (snapshotVal keywords timestamp results))
          "search_index" idx)
        (snapshot_key keywords timestamp) = snapshotVal keywords timestamp results := by
      simp only [get_blob, put_blob]
      rw [if_neg (snapshot_key_ne_index keywords timestamp)]
      simp
    unfold get_search_results
    rw [hdata]
    rfl

/-- A concrete store for the C10 witness. -/
def c10_store : Store :=
  put_blob emptyStore "searches/q" (PyVal.dict [("results", PyVal.list [PyVal.str "a"])])

/-- Witness for `c10_get_search_results_spec`: a stored dict whose
`results` field is a list reads back as that list. -/
theorem c10_get_search_results_spec_witness :
    get_blob c10_store "searches/q"
        = PyVal.dict [("results", PyVal.list [PyVal.str "a"])] ∧
    List.lookup "results" [("results", PyVal.list [PyVal.str "a"])]
        = some (PyVal.list [PyVal.str "a"]) ∧
    get_search_results c10_store "searches/q" = PyVal.list [PyVal.str "a"] :=
  ⟨rfl, rfl, (c10_get_search_results_spec c10_store "searches/q").2.2.1 _ _ rfl rfl⟩

/-! ## JUFO ranking resolution (`lib/api_utils.py`)

External collaborators are parameters: `fetch` is `fetch_jufo_api`
restricted to its observable behaviour (the non-empty item list it
returns, `[]` covering both `None` and an empty payload), `quoteUrl`
is `urllib.parse.quote`, `detail` the `kanava/{id}` detail endpoint
(`Option.none` for a non-200/timeout), `ratio` is `fuzz.ratio`, and
`cache` the `jufo_cache` map of the Edge Config store (`some`
distinguishes a present binding, whose value may itself be the
recorded-miss `None`).

`get_jufo_level` returns, besides the level, the list of cache writes
it issues (the fire-and-forget `set_jufo_level` tasks) and the list of
ranking-source query URLs it fetches, so that claims about "records the
miss" and "without querying the Ranking Source" are statable. -/

/-- One item of a JUFO search response: its `Name` and `Jufo_ID`
fields, a missing/falsy id modelled as `""`. -/
structure JufoItem where
  name : String
  jufoId : String
deriving DecidableEq, Repr

/-- One record of a JUFO detail response: its `Level` field
(`""` when missing). -/
structure JufoDetail where
  level : String
deriving DecidableEq, Repr

/-- `base_url` of `try_jufo_queries_in_sequence`. -/
def jufo_base_url : String := "https://jufo-rest.csc.fi/v1.1/etsi.php"

/-- `query = query[:100] if len(query) > 100 else query`. -/
def jufo_trunc (query : String) : String :=
  if query.length > 100 then String.mk (query.data.take 100) else query

/-- The exact-name strategy URL `f"{base_url}?nimi={quote(query)}"`. -/
def jufo_exact_url (quoteUrl : String → String) (query : String) : String :=
  jufo_base_url ++ "?nimi=" ++ quoteUrl (jufo_trunc query)

/-- The wildcard strategy URL `f"{base_url}?nimi={quote(f'*{query}*')}"`. -/
def jufo_wildcard_url (quoteUrl : String → String) (query : String) : String :=
  jufo_base_url ++ "?nimi=" ++ quoteUrl ("*" ++ jufo_trunc query ++ "*")

/-- The ISSN strategy URL `f"{base_url}?issn={quote(query)}"`. -/
def jufo_issn_url (quoteUrl : String → String) (query : String) : String :=
  jufo_base_url ++ "?issn=" ++ quoteUrl (jufo_trunc query)

/-- `len(query) <= 9 and ('-' in query or query.isdigit())`. -/
def looks_like_issn (query : String) : Prop :=
  (jufo_trunc query).length ≤ 9 ∧
    ((jufo_trunc query).data.contains '-' ∨ pyIsDigit (jufo_trunc query))

instance (query : String) : Decidable (looks_like_issn query) := by
  unfold looks_like_issn
  infer_instance

/-- `try_jufo_queries_in_sequence` (`lib/api_utils.py`, lines 120-154):
exact name, then wildcard, then ISSN when the query looks like one;
the first non-empty response wins.  The second component records the
URLs fetched, in order. -/
def try_jufo_queries_in_sequence (fetch : String → List JufoItem)
    (quoteUrl : String → String) (query : String) :
    Option (List JufoItem) × List String :=
  let u1 := jufo_exact_url quoteUrl query
  let d1 := fetch u1
  if ¬ d1.isEmpty then (some d1, [u1])
  else
    let u2 := jufo_wildcard_url quoteUrl query
    let d2 := fetch u2
    if ¬ d2.isEmpty then (some d2, [u1, u2])
    else
      if looks_like_issn query then
        let u3 := jufo_issn_url quoteUrl query
        let d3 := fetch u3
        if ¬ d3.isEmpty then (some d3, [u1, u2, u3]) else (Option.none, [u1, u2, u3])
      else (Option.none, [u1, u2])

/-- `augment_jufo_result` (`lib/api_utils.py`, lines 156-188): no
`Jufo_ID` gives `None`; otherwise the first detail record's `Level`
is parsed with `int(raw) if raw.isdigit() else None`; a failed or
empty detail response gives `None`. -/
def augment_jufo_result (detail : String → Option (List JufoDetail))
    (item : JufoItem) : Option Nat :=
  if item.jufoId = "" then Option.none
  else
    match detail item.jufoId with
    | some (d :: _) => if pyIsDigit d.level then some (pyParseNat d.level) else Option.none
    | _ => Option.none

/-- `get_jufo_level` of `lib/blob_storage.py` (lines 329-336, imported
by `api_utils.py` as `get_cached_jufo_level`): `jufo_cache.get(name)` —
an absent binding and a binding whose stored value is `None` both come
back as `None`, which is `Option.join` of the two-level option. -/
def get_cached_jufo_level (cache : String → Option (Option Nat))
    (journal_name : String) : Option Nat :=
  if journal_name = "" ∨ journal_name = "Unknown" then Option.none
  else (cache journal_name).join

variable (ratio : String → String → Nat) (journal_name : String)

/-- The best-match loop of `get_jufo_level` (`lib/api_utils.py`, lines
218-225), with the running `(best_match, best_ratio)` accumulator;
an update happens only on a strictly greater ratio. -/
def best_jufo_match_loop (best : Option JufoItem × Nat) :
    List JufoItem → Option JufoItem × Nat
  | [] => best
  | result :: rest =>
    let rt := ratio result.name journal_name
    if rt > best.2 then best_jufo_match_loop (some result, rt) rest
    else best_jufo_match_loop best rest

/-- The best-match loop started from `best_match = None`,
`best_ratio = 0`. -/
def best_jufo_match (results : List JufoItem) : Option JufoItem × Nat :=
  best_jufo_match_loop ratio journal_name (Option.none, 0) results

/-- The running best ratio never decreases. -/
theorem loop_mono (l : List JufoItem) :
    ∀ best : Option JufoItem × Nat,
      best.2 ≤ (best_jufo_match_loop ratio journal_name best l).2 := by
  induction l with
  | nil => intro best; simp [best_jufo_match_loop]
  | cons r rest ih =>
    intro best
    simp only [best_jufo_match_loop]
    split
    · exact le_trans (le_of_lt (by assumption)) (ih _)
    · exact ih best

/-- If the final ratio equals the starting one, the best item never
changed. -/
theorem loop_stay (l : List JufoItem) :
    ∀ best : Option JufoItem × Nat,
      (best_jufo_match_loop ratio journal_name best l).2 = best.2 →
      (best_jufo_match_loop ratio journal_name best l).1 = best.1 := by
  induction l with
  | nil => intro best _; rfl
  | cons r rest ih =>
    intro best h
    simp only [best_jufo_match_loop] at h ⊢
    by_cases hcond : ratio r.name journal_name > best.2
    · rw [if_pos hcond] at h
      exfalso
      have := loop_mono ratio journal_name rest (some r, ratio r.name journal_name)
      simp only at this
      omega
    · rw [if_neg hcond] at h ⊢
      exact ih best h

/-- The final ratio is the running maximum of the candidates' fuzzy
ratios. -/
theorem loop_max (l : List JufoItem) :
    ∀ best : Option JufoItem × Nat,
      (best_jufo_match_loop ratio journal_name best l).2
        = l.foldl (fun m r => max m (ratio r.name journal_name)) best.2 := by
  induction l with
  | nil => intro best; rfl
  | cons r rest ih =>
    intro best
    simp only [best_jufo_match_loop, List.foldl_cons]
    split
    · rename_i hgt
      rw [ih]
      congr 1
      omega
    · rename_i hle
      rw [ih]
      congr 1
      omega

/-- When the loop improves on its start, the chosen item is the FIRST
candidate attaining the final (maximal) ratio — the first-encountered
tie-break. -/
theorem loop_find (l : List JufoItem) :
    ∀ best : Option JufoItem × Nat,
      (best_jufo_match_loop ratio journal_name best l).2 > best.2 →
      (best_jufo_match_loop ratio journal_name best l).1
        = l.find? (fun r =>
            ratio r.name journal_name
              == (best_jufo_match_loop ratio journal_name best l).2) := by
  induction l with
  | nil => intro best h; simp [best_jufo_match_loop] at h
  | cons r rest ih =>
    intro best h
    simp only [best_jufo_match_loop] at h ⊢
    by_cases hcond : ratio r.name journal_name > best.2
    · rw [if_pos hcond] at h ⊢
      by_cases hfin : (best_jufo_match_loop ratio journal_name
          (some r, ratio r.name journal_name) rest).2 = ratio r.name journal_name
      · have hpos : (ratio r.name journal_name
            == (best_jufo_match_loop ratio journal_name
              (some r, ratio r.name journal_name) rest).2) = true := by
          simp only [beq_iff_eq]
          omega
        simp only [List.find?_cons, hpos]
        exact loop_stay ratio journal_name rest _ hfin
      · have hmono := loop_mono ratio journal_name rest (some r, ratio r.name journal_name)
        simp only at hmono
        have hgt : (best_jufo_match_loop ratio journal_name
            (some r, ratio r.name journal_name) rest).2 > ratio r.name journal_name := by
          omega
        have hneg : (ratio r.name journal_name
            == (best_jufo_match_loop ratio journal_name
              (some r, ratio r.name journal_name) rest).2) = false := by
          simp only [beq_eq_false_iff_ne, ne_eq]
          omega
        simp only [List.find?_cons, hneg]
        exact ih _ hgt
    · rw [if_neg hcond] at h ⊢
      have hne : (ratio r.name journal_name
          == (best_jufo_match_loop ratio journal_name best rest).2) = false := by
        simp only [beq_eq_false_iff_ne, ne_eq]
        omega
      simp only [List.find?_cons, hne]
      exact ih best h

/-- When the loop improves on its start, some candidate of the list is
chosen and attains the final ratio. -/
theorem loop_attained (l : List JufoItem) :
    ∀ best : Option JufoItem × Nat,
      (best_jufo_match_loop ratio journal_name best l).2 > best.2 →
      ∃ b ∈ l, (best_jufo_match_loop ratio journal_name best l).1 = some b ∧
        ratio b.name journal_name = (best_jufo_match_loop ratio journal_name best l).2 := by
  induction l with
  | nil => intro best h; simp [best_jufo_match_loop] at h
  | cons r rest ih =>
    intro best h
    simp only [best_jufo_match_loop] at h ⊢
    by_cases hcond : ratio r.name journal_name > best.2
    · rw [if_pos hcond] at h ⊢
      by_cases hfin : (best_jufo_match_loop ratio journal_name
          (some r, ratio r.name journal_name) rest).2 = ratio r.name journal_name
      · exact ⟨r, List.mem_cons_self r rest,
          loop_stay ratio journal_name rest _ hfin, hfin.symm⟩
      · have hmono := loop_mono ratio journal_name rest (some r, ratio r.name journal_name)
        simp only at hmono
        obtain ⟨b, hbmem, h1, h2⟩ := ih (some r, ratio r.name journal_name) (by omega)
        exact ⟨b, List.mem_cons_of_mem r hbmem, h1, h2⟩
    · rw [if_neg hcond] at h ⊢
      obtain ⟨b, hbmem, h1, h2⟩ := ih best h
      exact ⟨b, List.mem_cons_of_mem r hbmem, h1, h2⟩

/-- The observable outcome of one `get_jufo_level` call: the returned
level, the cache writes issued (`set_jufo_level` tasks, journal paired
with the recorded value), and the ranking-source query URLs fetched. -/
structure ResolveOutcome where
  level : Option Nat
  cacheWrites : List (String × Option Nat)
  queried : List String
deriving DecidableEq, Repr

/-- `get_jufo_level` of `lib/api_utils.py` (lines 190-238), the Ranking
Resolver: empty/`"Unknown"` journal short-circuits; a non-`None` cached
value is returned as-is (note `cached_level is not None` cannot see a
recorded miss, because `jufo_cache.get` returns `None` both for an
absent binding and for a stored `None`); otherwise the strategies run,
the best fuzzy match is taken at ratio > 60, and the outcome — level or
miss — is written back to the cache. -/
def get_jufo_level (cache : String → Option (Option Nat))
    (fetch : String → List JufoItem) (quoteUrl : String → String)
    (detail : String → Option (List JufoDetail)) (ratio : String → String → Nat)
    (journal_name : String) : ResolveOutcome :=
  if journal_name = "" ∨ journal_name = "Unknown" then ⟨Option.none, [], []⟩
  else
    match get_cached_jufo_level cache journal_name with
    | some lvl => ⟨some lvl, [], []⟩
    | Option.none =>
      let tq := try_jufo_queries_in_sequence fetch quoteUrl journal_name
      match tq.1 with
      | Option.none => ⟨Option.none, [(journal_name, Option.none)], tq.2⟩
      | some results =>
        let bm := best_jufo_match ratio journal_name results
        match bm.1 with
        | some best =>
          if bm.2 > 60 then
            let level := augment_jufo_result detail best
            ⟨level, [(journal_name, level)], tq.2⟩
          else ⟨Option.none, [(journal_name, Option.none)], tq.2⟩
        | Option.none => ⟨Option.none, [(journal_name, Option.none)], tq.2⟩

/-- C7: the strategies run in the order exact name, wildcard, ISSN; the
ISSN lookup runs only when the (truncated) journal string is at most 9
characters and contains a hyphen or is all digits; the first strategy
returning a non-empty result wins and no later strategy is fetched (the
`queried` trace is exactly the strategies tried, in order). -/
theorem c7_strategy_order (fetch : String → List JufoItem)
    (quoteUrl : String → String) (query : String) :
    (¬ (fetch (jufo_exact_url quoteUrl query)).isEmpty →
      try_jufo_queries_in_sequence fetch quoteUrl query
        = (some (fetch (jufo_exact_url quoteUrl query)), [jufo_exact_url quoteUrl query])) ∧
    ((fetch (jufo_exact_url quoteUrl query)).isEmpty →
      ¬ (fetch (jufo_wildcard_url quoteUrl query)).isEmpty →
      try_jufo_queries_in_sequence fetch quoteUrl query
        = (some (fetch (jufo_wildcard_url quoteUrl query)),
           [jufo_exact_url quoteUrl query, jufo_wildcard_url quoteUrl query])) ∧
    ((fetch (jufo_exact_url quoteUrl query)).isEmpty →
      (fetch (jufo_wildcard_url quoteUrl query)).isEmpty →
      looks_like_issn query →
      try_jufo_queries_in_sequence fetch quoteUrl query
        = (if ¬ (fetch (jufo_issn_url quoteUrl query)).isEmpty
            then (some (fetch (jufo_issn_url quoteUrl query)),
              [jufo_exact_url quoteUrl query, jufo_wildcard_url quoteUrl query,
               jufo_issn_url quoteUrl query])
            else (Option.none,
              [jufo_exact_url quoteUrl query, jufo_wildcard_url quoteUrl query,
               jufo_issn_url quoteUrl query]))) ∧
    ((fetch (jufo_exact_url quoteUrl query)).isEmpty →
      (fetch (jufo_wildcard_url quoteUrl query)).isEmpty →
      ¬ looks_like_issn query →
      try_jufo_queries_in_sequence fetch quoteUrl query
        = (Option.none,
           [jufo_exact_url quoteUrl query, jufo_wildcard_url quoteUrl query])) := by
  refine ⟨?_, ?_, ?_, ?_⟩
  · intro h1
    simp [try_jufo_queries_in_sequence, h1]
  · intro h1 h2
    simp [try_jufo_queries_in_sequence, h1, h2]
  · intro h1 h2 h3
    simp only [try_jufo_queries_in_sequence, h1, h2]
    rw [if_neg (by simp), if_neg (by simp), if_pos h3]
  · intro h1 h2 h3
    simp only [try_jufo_queries_in_sequence, h1, h2]
    rw [if_neg (by simp), if_neg (by simp), if_neg h3]

/-- A ranking source that only answers the wildcard strategy. -/
def c7_fetch : String → List JufoItem :=
  fun u => if u = jufo_wildcard_url (fun s => s) "Nature" then [⟨"Nature", "77"⟩] else []

/-- Witness for `c7_strategy_order`: a source answering only the
wildcard strategy still yields its result — the exact-name strategy
fails over to the wildcard one. -/
theorem c7_strategy_order_witness :
    (c7_fetch (jufo_exact_url (fun s => s) "Nature")).isEmpty = true ∧
    (c7_fetch (jufo_wildcard_url (fun s => s) "Nature")).isEmpty = false ∧
    try_jufo_queries_in_sequence c7_fetch (fun s => s) "Nature"
      = (some [⟨"Nature", "77"⟩],
         [jufo_exact_url (fun s => s) "Nature", jufo_wildcard_url (fun s => s) "Nature"]) := by
  refine ⟨by decide, by decide, ?_⟩
  exact (c7_strategy_order c7_fetch (fun s => s) "Nature").2.1 (by decide) (by decide)

/-- C8: on a cache miss with a non-empty candidate set, the best ratio
is the maximum fuzzy ratio over the candidates; the chosen candidate is
the first one attaining it; a best ratio of at most 60 records a miss
in the cache and returns null; a best ratio above 60 returns the
candidate's detail level — parsed with `int` when the `Level` string is
all digits, null when it is non-numeric or missing — and records
exactly that value (even null) in the cache. -/
theorem c8_best_match_resolution (cache : String → Option (Option Nat))
    (fetch : String → List JufoItem) (quoteUrl : String → String)
    (detail : String → Option (List JufoDetail)) (ratio : String → String → Nat)
    (journal_name : String) (results : List JufoItem)
    (hname : journal_name ≠ "" ∧ journal_name ≠ "Unknown")
    (hcache : get_cached_jufo_level cache journal_name = Option.none)
    (hq : (try_jufo_queries_in_sequence fetch quoteUrl journal_name).1 = some results) :
    (best_jufo_match ratio journal_name results).2
        = results.foldl (fun m r => max m (ratio r.name journal_name)) 0 ∧
    ((best_jufo_match ratio journal_name results).2 > 0 →
      (best_jufo_match ratio journal_name results).1
        = results.find? (fun r => ratio r.name journal_name
            == (best_jufo_match ratio journal_name results).2)) ∧
    ((best_jufo_match ratio journal_name results).2 ≤ 60 →
      get_jufo_level cache fetch quoteUrl detail ratio journal_name
        = ⟨Option.none, [(journal_name, Option.none)],
           (try_jufo_queries_in_sequence fetch quoteUrl journal_name).2⟩) ∧
    ((best_jufo_match ratio journal_name results).2 > 60 →
      ∃ b ∈ results,
        (best_jufo_match ratio journal_name results).1 = some b ∧
        ratio b.name journal_name = (best_jufo_match ratio journal_name results).2 ∧
        get_jufo_level cache fetch quoteUrl detail ratio journal_name
          = ⟨augment_jufo_result detail b,
             [(journal_name, augment_jufo_result detail b)],
             (try_jufo_queries_in_sequence fetch quoteUrl journal_name).2⟩) ∧
    (∀ item, item.jufoId = "" → augment_jufo_result detail item = Option.none) ∧
    (∀ item, item.jufoId ≠ "" →
      (detail item.jufoId = Option.none ∨ detail item.jufoId = some []) →
      augment_jufo_result detail item = Option.none) ∧
    (∀ item d ds, item.jufoId ≠ "" → detail item.jufoId = some (d :: ds) →
      pyIsDigit d.level = false → augment_jufo_result detail item = Option.none) ∧
    (∀ item d ds, item.jufoId ≠ "" → detail item.jufoId = some (d :: ds) →
      pyIsDigit d.level = true →
      augment_jufo_result detail item = some (pyParseNat d.level)) := by
  have hcond : ¬ (journal_name = "" ∨ journal_name = "Unknown") := by
    rcases hname with ⟨h1, h2⟩
    rintro (h | h) <;> [exact h1 h; exact h2 h]
  refine ⟨loop_max ratio journal_name results (Option.none, 0), ?_, ?_, ?_, ?_, ?_, ?_, ?_⟩
  · intro h0
    exact loop_find ratio journal_name results (Option.none, 0) h0
  · intro hle
    simp only [get_jufo_level, hcache, hq]
    rw [if_neg hcond]
    rcases hbm : (best_jufo_match ratio journal_name results).1 with _ | b
    · simp [best_jufo_match] at hbm
      simp [hbm]
    · simp [best_jufo_match] at hbm
      simp only [best_jufo_match, hbm]
      rw [if_neg (by unfold best_jufo_match at *; omega)]
  · intro hgt
    obtain ⟨b, hbmem, hb1, hb2⟩ :=
      loop_attained ratio journal_name results (Option.none, 0) (by
        unfold best_jufo_match at hgt
        omega)
    refine ⟨b, hbmem, hb1, hb2, ?_⟩
    simp only [get_jufo_level, hcache, hq]
    rw [if_neg hcond]
    simp only [best_jufo_match] at hb1 ⊢
    simp only [hb1]
    rw [if_pos (by unfold best_jufo_match at hgt; omega)]
  · intro item h
    simp [augment_jufo_result, h]
  · intro item h hd
    rcases hd with hd | hd <;> simp [augment_jufo_result, h, hd]
  · intro item d ds h hd hlev
    simp [augment_jufo_result, h, hd, hlev]
  · intro item d ds h hd hlev
    simp [augment_jufo_result, h, hd, hlev]

/-- A cache holding every journal unresolved, for the C8 witness. -/
def c8_cache : String → Option (Option Nat) := fun _ => Option.none

/-- A source answering the exact-name strategy for `"Science"`. -/
def c8_fetch : String → List JufoItem :=
  fun u => if u = jufo_exact_url (fun s => s) "Science" then [⟨"Science", "55"⟩] else []

/-- A detail endpoint giving `"Science"` the level string `"3"`. -/
def c8_detail : String → Option (List JufoDetail) :=
  fun i => if i = "55" then some [⟨"3"⟩] else Option.none

/-- Exact string matches score 100, everything else 0. -/
def c8_ratio : String → String → Nat :=
  fun a b => if a = b then 100 else 0

/-- Witness for `c8_best_match_resolution`: a perfect fuzzy match above
the 60 threshold resolves to the parsed detail level 3 and records it
in the cache. -/
theorem c8_best_match_resolution_witness :
    (("Science" : String) ≠ "" ∧ ("Science" : String) ≠ "Unknown") ∧
    get_jufo_level c8_cache c8_fetch (fun s => s) c8_detail c8_ratio "Science"
      = ⟨some 3, [("Science", some 3)], [jufo_exact_url (fun s => s) "Science"]⟩ := by
  have h := c8_best_match_resolution c8_cache c8_fetch (fun s => s) c8_detail c8_ratio
    "Science" [⟨"Science", "55"⟩] ⟨by decide, by decide⟩ rfl rfl
  obtain ⟨b, hbmem, hb1, hb2, hres⟩ := h.2.2.2.1 (by decide)
  refine ⟨⟨by decide, by decide⟩, ?_⟩
  rw [hres]
  have hb : b = ⟨"Science", "55"⟩ := by simpa using hbmem
  subst hb
  rfl

/-- The Ranking Cache holding an explicitly recorded miss (`None`) for
`"Acta"`. -/
def c1_cache : String → Option (Option Nat) :=
  fun s => if s = "Acta" then some Option.none else Option.none

/-- A ranking source that answers the exact-name strategy for
`"Acta"`. -/
def c1_fetch : String → List JufoItem :=
  fun u => if u = jufo_exact_url (fun s => s) "Acta" then [⟨"Acta", "123"⟩] else []

/-- A detail endpoint giving `"Acta"` the level string `"2"`. -/
def c1_detail : String → Option (List JufoDetail) :=
  fun i => if i = "123" then some [⟨"2"⟩] else Option.none

/-- Exact string matches score 100, everything else 0. -/
def c1_ratio : String → String → Nat :=
  fun a b => if a = b then 100 else 0

/-- C1, failing input: the cache holds an explicitly recorded miss for
`"Acta"` (`some Option.none`), yet the resolver queries the ranking
source (the `queried` trace is non-empty) and returns the fresh level 2
instead of the cached null verbatim: `jufo_cache.get` collapses a
stored `None` into "absent", so the `cached_level is not None` check
cannot short-circuit on a recorded miss — contradicting the code's own
comment "Cache the miss to avoid repeated queries for the same
journal". -/
theorem c1_cached_null_is_requeried :
    c1_cache "Acta" = some Option.none ∧
    get_jufo_level c1_cache c1_fetch (fun s => s) c1_detail c1_ratio "Acta"
      = ⟨some 2, [("Acta", some 2)], [jufo_exact_url (fun s => s) "Acta"]⟩ :=
  ⟨rfl, rfl⟩
